import Mathlib

/-!
Verification of `tensorflow/python/saved_model/export.py`.

The Python module exports a checkpointable object to the SavedModel format.
This file gives a shallow embedding of the module's data model and operations:

* `Tensor` models a TensorFlow tensor / resource handle; its `ctx` field
  records which context it lives in (the live eager context, the exported
  graph under construction, or the interior of a traced function body).
  Fresh tensors created in the exported graph draw their `uid` from a
  counter threaded through the functions that create graph nodes
  (mirroring the fact that each newly created op is a distinct node of the
  exported graph).
* `TrackedObject` models a checkpointable object listed by the reachability
  walker: either a resource variable (with a resource handle), an object
  owning some other kind of resource handle, or a plain object owning none.
* `PyVal` models the Python structures returned by a traced function
  (a tensor, a sequence, or a string-keyed mapping).
* Each Python function of the module (`_map_resources`, `_normalize_outputs`,
  `_map_captured_resources_to_created_resources`,
  `_map_function_inputs_to_created_inputs`, `_generate_signatures`,
  `_canonicalize_signatures`, `_make_graph_def`, `export`) is embedded as a
  Lean function of the same name (camel-cased).  Python exceptions become
  `Except ExportError`; each error constructor carries exactly the values
  interpolated into the corresponding Python message, and
  `ExportError.message` rebuilds the message text.
* External collaborators (the checkpoint saver, `nest`, `file_io`,
  `array_ops.placeholder`, `resource_variable_ops.copy_to_graph_uninitialized`)
  are modelled by their documented contracts; the file-system and
  graph-lifecycle side effects of `export` are recorded as an `Event` trace.
-/

namespace TFExport

/-- The execution context a tensor belongs to: the live eager context, the
exported graph under construction, or the interior of a traced function
body. -/
inductive Ctx where
  | eager
  | exported
  | interior
deriving DecidableEq

/-- A tensor / resource handle.  `uid` identifies the producing node,
`opName` is the node's name, and `userSpecifiedName` models the
`_user_specified_name` op attribute carried by traced-function input
placeholders. -/
structure Tensor where
  ctx : Ctx
  uid : Nat
  dtype : Nat
  shape : List (Option Nat)
  opName : String
  userSpecifiedName : String
deriving DecidableEq

/-- Python `dict.get(k, None)` over an insertion-ordered association list. -/
def dictGet {α β : Type} [DecidableEq α] (k : α) : List (α × β) → Option β
  | [] => none
  | p :: rest => if p.1 = k then some p.2 else dictGet k rest

/-- A checkpointable object enumerated by `util.list_objects`:
a resource variable, an object owning a non-variable resource handle, or an
object owning no resource handle. -/
inductive TrackedObject where
  | resourceVariable (uid : Nat) (handle : Tensor)
  | otherResource (uid : Nat) (handle : Tensor)
  | plain (uid : Nat)
deriving DecidableEq

/-- `resource_variable_ops.is_resource_variable`. -/
def TrackedObject.isResourceVariable : TrackedObject → Bool
  | .resourceVariable _ _ => true
  | _ => false

/-- The resource handle owned by an object, if any. -/
def TrackedObject.handle? : TrackedObject → Option Tensor
  | .resourceVariable _ h => some h
  | .otherResource _ h => some h
  | .plain _ => none

/-- `_map_resources(accessible_objects)`: for each resource variable, create
an uninitialized twin variable in the current default (exported) graph via
`resource_variable_ops.copy_to_graph_uninitialized`, recording the object in
`object_map` and its handle in `resource_map`.  The counter `c` supplies the
uids of nodes freshly created in the exported graph. -/
def mapResources : List TrackedObject → Nat →
    List (TrackedObject × TrackedObject) × List (Tensor × Tensor) × Nat
  | [], c => ([], [], c)
  | obj :: rest, c =>
    match obj with
    | .resourceVariable i h =>
        -- copy_to_graph_uninitialized: a new variable in the exported graph
        -- with the same dtype/shape metadata and a fresh handle node.
        let newHandle : Tensor :=
          ⟨Ctx.exported, c, h.dtype, h.shape, "VarHandleOp_" ++ toString c, ""⟩
        let newVariable : TrackedObject := .resourceVariable c newHandle
        let (objectMap, resourceMap, c') := mapResources rest (c + 1)
        ((.resourceVariable i h, newVariable) :: objectMap,
         (h, newHandle) :: resourceMap, c')
    | .otherResource _ _ => mapResources rest c
    | .plain _ => mapResources rest c

/-- A Python value returned by a traced function: a tensor, a sequence, or a
string-keyed mapping. -/
inductive PyVal where
  | tensor (t : Tensor)
  | list (xs : List PyVal)
  | dict (kvs : List (String × PyVal))

mutual

/-- `nest.flatten`: the flat list of atoms of a structure, in traversal
order.  (The real `nest` visits mapping values in sorted-key order; only the
multiset of atoms and their count matter here, since `_is_flat` compares
structures and atoms compare equal regardless of value.) -/
def nestFlatten : PyVal → List Tensor
  | .tensor t => [t]
  | .list xs => nestFlattenList xs
  | .dict kvs => nestFlattenDict kvs

def nestFlattenList : List PyVal → List Tensor
  | [] => []
  | x :: xs => nestFlatten x ++ nestFlattenList xs

def nestFlattenDict : List (String × PyVal) → List Tensor
  | [] => []
  | kv :: kvs => nestFlatten kv.2 ++ nestFlattenDict kvs

end

mutual

/-- `nest.assert_same_structure` as a Boolean: two values have the same
structure when their non-atom skeletons agree (atoms match any atom). -/
def sameStructure : PyVal → PyVal → Bool
  | .tensor _, .tensor _ => true
  | .list xs, .list ys => sameStructureList xs ys
  | .dict xs, .dict ys => sameStructureDict xs ys
  | _, _ => false

def sameStructureList : List PyVal → List PyVal → Bool
  | [], [] => true
  | x :: xs, y :: ys => sameStructure x y && sameStructureList xs ys
  | _, _ => false

def sameStructureDict : List (String × PyVal) → List (String × PyVal) → Bool
  | [], [] => true
  | x :: xs, y :: ys => (x.1 = y.1 : Bool) && sameStructure x.2 y.2 &&
      sameStructureDict xs ys
  | _, _ => false

end

/-- `_is_flat(sequence)`: flatten the sequence and check the flat list has
the same structure as the original. -/
def isFlat (sequence : PyVal) : Bool :=
  sameStructure (PyVal.list ((nestFlatten sequence).map PyVal.tensor)) sequence

/-- Python `str()` of a tensor, as interpolated into error messages. -/
def tensorRepr (t : Tensor) : String :=
  "Tensor(uid=" ++ toString t.uid ++ ", name=" ++ t.opName ++ ")"

mutual

/-- Python `str()` of a value, as interpolated into error messages. -/
def pyValRepr : PyVal → String
  | .tensor t => tensorRepr t
  | .list xs => "[" ++ pyValReprList xs ++ "]"
  | .dict kvs => "\x7b" ++ pyValReprDict kvs ++ "\x7d"

def pyValReprList : List PyVal → String
  | [] => ""
  | [x] => pyValRepr x
  | x :: xs => pyValRepr x ++ ", " ++ pyValReprList xs

def pyValReprDict : List (String × PyVal) → String
  | [] => ""
  | [kv] => kv.1 ++ ": " ++ pyValRepr kv.2
  | kv :: kvs => kv.1 ++ ": " ++ pyValRepr kv.2 ++ ", " ++ pyValReprDict kvs

end

/-- The exceptions raised by `export.py`.  Each constructor carries exactly
the values the Python code interpolates into the exception message. -/
inductive ExportError where
  /-- `ValueError` in `_canonicalize_signatures`: a polymorphic function
  without an input signature. -/
  | ambiguousFunction (funcRepr : String)
  /-- `ValueError` in `_canonicalize_signatures`: not a TensorFlow function. -/
  | notAFunction (valueRepr : String)
  /-- `ValueError` in `_normalize_outputs`: non-Tensor value in an output
  dictionary. -/
  | nonTensorValue (value : PyVal) (key : String) (functionName : String)
  /-- `ValueError` in `_normalize_outputs`: non-flat outputs. -/
  | nonFlat (originalOutputs : PyVal) (functionName : String)
      (signatureKey : String)
  /-- `AssertionError` in `_map_captured_resources_to_created_resources`:
  a captured resource missing from the resource map. -/
  | untrackedObject (interior : Tensor)
  /-- `ValueError` in `_map_function_inputs_to_created_inputs`: non-unique
  argument names. -/
  | nonUniqueArgName (signatureKey : String) (functionName : String)
      (userInputName : String)
  /-- `ValueError` in `export`: the root object is not checkpointable. -/
  | notCheckpointable (objRepr : String)
  /-- A failure of the external `file_io` collaborator while writing the
  serialized container. -/
  | writeFailed

/-- The message text of each exception, with the carried values interpolated
at the position of the `format` placeholders of the Python source. -/
def ExportError.message : ExportError → String
  | .ambiguousFunction r =>
      "Unable to use the function " ++ r ++ " as a signature directly. " ++
      "Functions used to generate serving signatures must either have an " ++
      "`input_signature=` specified when constructed, or must be " ++
      "converted to concrete functions using `f.get_concrete_function(...)`."
  | .notAFunction r =>
      "Expected a TensorFlow function to generate a signature for, but " ++
      "got " ++ r ++ ". Python functions may be decorated with " ++
      "`@tf.function(input_signature=...)` and passed as signatures " ++
      "directly, or created without a signature using `@tf.function` " ++
      "and then converted to a concrete TensorFlow function using " ++
      "`f.get_concrete_function(...)`."
  | .nonTensorValue value key functionName =>
      "Got a dictionary containing non-Tensor value " ++ pyValRepr value ++
      " for key " ++ key ++
      " in the output of the function " ++ functionName ++
      " used to generate a SavedModel " ++
      "signature. Dictionaries outputs for functions used as signatures " ++
      "should have one Tensor output per string key."
  | .nonFlat originalOutputs functionName signatureKey =>
      "Got non-flat outputs '" ++ pyValRepr originalOutputs ++ "' from '" ++
      functionName ++ "' for SavedModel " ++
      "signature '" ++ signatureKey ++ "'. Signatures have one Tensor per " ++
      "output, so to have predictable names Python functions used to " ++
      "generate these signatures should avoid outputting Tensors in " ++
      "nested structures."
  | .untrackedObject interior =>
      "Tried to export a function which references untracked stateful " ++
      "object " ++ tensorRepr interior ++
      ". Stateful TensorFlow objects (e.g. tf.Variable) must " ++
      "be tracked by the main object. Objects may be tracked by " ++
      "assigning them to an attribute of another tracked object, or to " ++
      "an attribute of the main object directly."
  | .nonUniqueArgName signatureKey functionName userInputName =>
      "Got non-flat/non-unique argument names for SavedModel " ++
      "signature '" ++ signatureKey ++ "': more than one argument to '" ++
      functionName ++ "' was named '" ++ userInputName ++ "'. " ++
      "Signatures have one Tensor per named input, so to have " ++
      "predictable names Python functions used to generate these " ++
      "signatures should avoid *args and Tensors in nested " ++
      "structures unless unique names are specified for each. Use " ++
      "tf.TensorSpec(..., name=...) to provide a name for a Tensor " ++
      "input."
  | .notCheckpointable r =>
      "Expected a Checkpointable object for export, got " ++ r ++ "."
  | .writeFailed => "failed to write the serialized SavedModel"

/-- `needle` occurs as contiguous text inside `hay`. -/
def containsStr (needle hay : String) : Prop :=
  needle.data <:+: hay.data

instance (needle hay : String) : Decidable (containsStr needle hay) :=
  inferInstanceAs (Decidable (needle.data <:+: hay.data))

/-- The validation loop at the top of `_normalize_outputs`: the first
non-Tensor value of an output dictionary yields the error the Python loop
raises, in iteration order. -/
def checkDictOutputs (functionName : String) :
    List (String × PyVal) → Option ExportError
  | [] => none
  | (key, value) :: rest =>
    match value with
    | .tensor _ => checkDictOutputs functionName rest
    | .list xs => some (.nonTensorValue (.list xs) key functionName)
    | .dict kvs => some (.nonTensorValue (.dict kvs) key functionName)

/-- The dictionary comprehension of `_normalize_outputs`: keys
`output_<i>` in positional order, starting at index `i`. -/
def enumerateOutputs : Nat → List PyVal → List (String × PyVal)
  | _, [] => []
  | i, x :: xs => ("output_" ++ toString i, x) :: enumerateOutputs (i + 1) xs

/-- `_normalize_outputs(outputs, function_name, signature_key)`. -/
def normalizeOutputs (outputs : PyVal) (functionName signatureKey : String) :
    Except ExportError (List (String × PyVal)) :=
  match outputs with
  | .dict kvs =>
      match checkDictOutputs functionName kvs with
      | some e => .error e
      | none => .ok kvs
  | .tensor t =>
      -- a bare (non-sequence) value is wrapped in a one-element list;
      -- `original_outputs` (the unwrapped value) goes into the error message
      if isFlat (.list [.tensor t]) then
        .ok (enumerateOutputs 0 [.tensor t])
      else
        .error (.nonFlat (.tensor t) functionName signatureKey)
  | .list xs =>
      if isFlat (.list xs) then
        .ok (enumerateOutputs 0 xs)
      else
        .error (.nonFlat (.list xs) functionName signatureKey)

/-- `_map_captured_resources_to_created_resources(original_captures,
resource_map)`: map each captured exterior (eager) tensor through the
resource map, raising an untracked-object error at the first capture whose
exterior handle has no entry. -/
def mapCapturedResourcesToCreatedResources
    (originalCaptures : List (Tensor × Tensor))
    (resourceMap : List (Tensor × Tensor)) :
    Except ExportError (List (Tensor × Tensor)) :=
  match originalCaptures with
  | [] => .ok []
  | (exterior, interior) :: rest =>
    match dictGet exterior resourceMap with
    | none => .error (.untrackedObject interior)
    | some mappedResource =>
        match mapCapturedResourcesToCreatedResources rest resourceMap with
        | .error e => .error e
        | .ok exportCaptures =>
            .ok ((interior, mappedResource) :: exportCaptures)

/-- `array_ops.placeholder(shape=, dtype=, name=)` in the exported graph:
a fresh placeholder node whose uid is the graph's current counter (the
caller advances the counter by one for the created node). -/
def arrayOpsPlaceholder (shape : List (Option Nat)) (dtype : Nat)
    (name : String) (c : Nat) : Tensor :=
  ⟨Ctx.exported, c, dtype, shape, name, ""⟩

/-- `_map_function_inputs_to_created_inputs(function_inputs,
export_captures, signature_key, function_name)`: walk the function's inputs
in order; captured inputs are replaced by their mapped resource tensor,
argument inputs by a fresh exterior placeholder named
`<signature_key>_<user_input_name>`, recorded under the argument's name. -/
def mapFunctionInputsToCreatedInputs
    (functionInputs : List Tensor) (exportCaptures : List (Tensor × Tensor))
    (signatureKey : String) (functionName : String) (c : Nat) :
    Except ExportError (List Tensor × List (String × Tensor) × Nat) :=
  match functionInputs with
  | [] => .ok ([], [], c)
  | placeholder :: rest =>
    match dictGet placeholder exportCaptures with
    | some mappedResourceTensor =>
        -- this is a captured resource
        match mapFunctionInputsToCreatedInputs rest exportCaptures
            signatureKey functionName c with
        | .error e => .error e
        | .ok (mappedInputs, exteriorArgumentPlaceholders, c') =>
            .ok (mappedResourceTensor :: mappedInputs,
                 exteriorArgumentPlaceholders, c')
    | none =>
        let userInputName := placeholder.userSpecifiedName
        if userInputName ≠ placeholder.opName then
          .error (.nonUniqueArgName signatureKey functionName userInputName)
        else
          let argPlaceholder :=
            arrayOpsPlaceholder placeholder.shape placeholder.dtype
              (signatureKey ++ "_" ++ userInputName) c
          match mapFunctionInputsToCreatedInputs rest exportCaptures
              signatureKey functionName (c + 1) with
          | .error e => .error e
          | .ok (mappedInputs, exteriorArgumentPlaceholders, c') =>
              .ok (argPlaceholder :: mappedInputs,
                   (userInputName, argPlaceholder) ::
                     exteriorArgumentPlaceholders, c')

/-- A concrete TensorFlow function (the compiler collaborator's output):
its name, its capture table (`func.graph.captures`, exterior eager tensor →
interior placeholder), its ordered input placeholder list (`func.inputs`),
and the structured outputs produced by calling its inference function on a
list of inputs (`func._build_call_outputs(func._inference_function.call(...))`). -/
structure ConcreteFunction where
  name : String
  captures : List (Tensor × Tensor)
  inputs : List Tensor
  callOutputs : List Tensor → PyVal

/-- A `TensorInfo` proto built by `utils_impl.build_tensor_info`. -/
structure TensorInfo where
  name : String
  dtype : Nat
  shape : List (Option Nat)
deriving DecidableEq

/-- `utils_impl.build_tensor_info`. -/
def buildTensorInfo (t : Tensor) : TensorInfo :=
  ⟨t.opName, t.dtype, t.shape⟩

/-- `build_tensor_info` applied to a normalized output value.  After
`_normalize_outputs` every value is a tensor; the fallback row is never
reached downstream of normalization. -/
def pyValTensorInfo : PyVal → TensorInfo
  | .tensor t => buildTensorInfo t
  | _ => ⟨"", 0, []⟩

/-- `_tensor_dict_to_tensorinfo` on the exterior argument placeholders. -/
def tensorDictToTensorinfo (d : List (String × Tensor)) :
    List (String × TensorInfo) :=
  d.map fun p => (p.1, buildTensorInfo p.2)

/-- `_tensor_dict_to_tensorinfo` on the normalized outputs. -/
def outputsDictToTensorinfo (d : List (String × PyVal)) :
    List (String × TensorInfo) :=
  d.map fun p => (p.1, pyValTensorInfo p.2)

/-- A `SignatureDef` proto built by
`signature_def_utils.build_signature_def`. -/
structure SignatureDef where
  inputs : List (String × TensorInfo)
  outputs : List (String × TensorInfo)
deriving DecidableEq

/-- The body of the loop of `_generate_signatures` for one signature key:
`func.add_to_graph(register_gradient_functions=False)` registers the
function body in the exported graph (no signature-relevant data), then the
captures are mapped, the inputs rebound, the function called on the mapped
inputs, its outputs normalized, and a `SignatureDef` built. -/
def processSignature (signatureKey : String) (func : ConcreteFunction)
    (resourceMap : List (Tensor × Tensor)) (c : Nat) :
    Except ExportError (SignatureDef × Nat) :=
  match mapCapturedResourcesToCreatedResources func.captures resourceMap with
  | .error e => .error e
  | .ok exportCaptures =>
    match mapFunctionInputsToCreatedInputs func.inputs exportCaptures
        signatureKey func.name c with
    | .error e => .error e
    | .ok (mappedInputs, exteriorArgumentPlaceholders, c') =>
      match normalizeOutputs (func.callOutputs mappedInputs) func.name
          signatureKey with
      | .error e => .error e
      | .ok outputs =>
          .ok (⟨tensorDictToTensorinfo exteriorArgumentPlaceholders,
                outputsDictToTensorinfo outputs⟩, c')

/-- Comparison of key/function pairs by key, as Python's tuple comparison
behaves on dictionary items (keys are unique in a dict, so the function
components are never compared). -/
def sigItemLE (a b : String × ConcreteFunction) : Prop := a.1 ≤ b.1

/-- Strict comparison of key/function pairs by key. -/
def sigItemLT (a b : String × ConcreteFunction) : Prop := a.1 < b.1

instance : DecidableRel sigItemLE := fun a b =>
  inferInstanceAs (Decidable (a.1 ≤ b.1))

instance : IsTotal (String × ConcreteFunction) sigItemLE :=
  ⟨fun a b => le_total a.1 b.1⟩

instance : IsTrans (String × ConcreteFunction) sigItemLE :=
  ⟨fun _ _ _ h1 h2 => le_trans h1 h2⟩

instance : IsAntisymm (String × ConcreteFunction) sigItemLT :=
  ⟨fun _ _ h1 h2 => absurd h2 (lt_asymm h1)⟩

/-- `sorted(signature_functions.items())`: the key/function pairs in
lexicographic key order. -/
def sortSignatureItems (l : List (String × ConcreteFunction)) :
    List (String × ConcreteFunction) :=
  List.insertionSort sigItemLE l

/-- The fold of `_generate_signatures` over the sorted key/function pairs,
threading the exported graph's node counter. -/
def generateSignaturesGo (resourceMap : List (Tensor × Tensor)) :
    List (String × ConcreteFunction) → Nat →
    Except ExportError (List (String × SignatureDef) × Nat)
  | [], c => .ok ([], c)
  | (signatureKey, func) :: rest, c =>
      match processSignature signatureKey func resourceMap c with
      | .error e => .error e
      | .ok (sigDef, c') =>
          match generateSignaturesGo resourceMap rest c' with
          | .error e => .error e
          | .ok (signatures, c'') =>
              .ok ((signatureKey, sigDef) :: signatures, c'')

/-- `_generate_signatures(signature_functions, resource_map)`. -/
def generateSignatures (signatureFunctions : List (String × ConcreteFunction))
    (resourceMap : List (Tensor × Tensor)) (c : Nat) :
    Except ExportError (List (String × SignatureDef) × Nat) :=
  generateSignaturesGo resourceMap (sortSignatureItems signatureFunctions) c

/-- A value supplied in the `signatures` argument of `export`:
a polymorphic (`tf.function`-decorated) function with an optional input
signature, an already-concrete function, or anything else. -/
inductive SigValue where
  | polymorphicFunction (inputSignature : Option Unit)
      (concrete : ConcreteFunction)
  | concreteFunction (f : ConcreteFunction)
  | other (valueRepr : String)

/-- The `signatures` argument of `export`: absent, a single value, or a
string-keyed mapping. -/
inductive SignaturesArg where
  | nothing
  | single (v : SigValue)
  | mapping (m : List (String × SigValue))

/-- `signature_constants.DEFAULT_SERVING_SIGNATURE_DEF_KEY`. -/
def defaultServingSignatureDefKey : String := "serving_default"

/-- One entry of the loop of `_canonicalize_signatures`: a polymorphic
function must carry an input signature (its `get_concrete_function()` is the
carried concrete function); a concrete function is accepted as-is; anything
else is a `ValueError`. -/
def canonicalizeEntry : SigValue → Except ExportError ConcreteFunction
  | .polymorphicFunction none concrete =>
      .error (.ambiguousFunction concrete.name)
  | .polymorphicFunction (some _) concrete => .ok concrete
  | .concreteFunction f => .ok f
  | .other valueRepr => .error (.notAFunction valueRepr)

/-- The loop of `_canonicalize_signatures` over the key/value pairs. -/
def canonicalizeSignaturesGo :
    List (String × SigValue) →
    Except ExportError (List (String × ConcreteFunction))
  | [] => .ok []
  | (servingKey, signatureFunction) :: rest =>
      match canonicalizeEntry signatureFunction with
      | .error e => .error e
      | .ok f =>
          match canonicalizeSignaturesGo rest with
          | .error e => .error e
          | .ok others => .ok ((servingKey, f) :: others)

/-- `_canonicalize_signatures(signatures)`. -/
def canonicalizeSignatures : SignaturesArg →
    Except ExportError (List (String × ConcreteFunction))
  | .nothing => .ok []
  | .single v => canonicalizeSignaturesGo [(defaultServingSignatureDefKey, v)]
  | .mapping m => canonicalizeSignaturesGo m

/-- The observable side effects of an `export` call, in execution order:
file-system writes of the persistence collaborator and `file_io`, and the
lifecycle steps of the transient exported graph. -/
inductive Event where
  /-- `utils_impl.get_or_create_variables_dir(export_dir)` -/
  | createVariablesDir
  /-- `object_saver.save(utils_impl.get_variables_path(export_dir))` -/
  | writeCheckpoint
  /-- `exported_graph = ops.Graph()` -/
  | createExportedGraph
  /-- `_map_resources` inside `exported_graph.as_default()` -/
  | mapResourcesStep
  /-- `object_saver.freeze(object_map=..., to_graph=exported_graph)` -/
  | freezeSaver
  /-- `_generate_signatures` inside `exported_graph.as_default()` -/
  | generateSignaturesStep
  /-- `exported_graph.as_graph_def(add_shapes=True)` -/
  | snapshotGraph
  /-- `ops.dismantle_graph(exported_graph)` -/
  | dismantleGraph
  /-- building the `SavedModel` proto in `export` -/
  | assembleContainer
  /-- `file_io.write_string_to_file(path, saved_model.SerializeToString())` -/
  | writeSavedModel
deriving DecidableEq

/-- The root object passed to `export`: whether it satisfies the
checkpointable capability, its `str()` (for the error message), and the
objects the reachability walker `util.list_objects` returns for it. -/
structure RootObject where
  isCheckpointable : Bool
  objRepr : String
  objects : List TrackedObject

/-- The frozen persistence descriptor (`saver.to_proto()`), an opaque value
of the external persistence collaborator rebound through the object map. -/
structure SaverDef where
  reboundObjectCount : Nat
deriving DecidableEq

/-- `exported_graph.as_graph_def(add_shapes=True)`: the immutable snapshot
of the exported graph. -/
structure GraphDef where
  nodeCount : Nat
deriving DecidableEq

/-- `constants.SAVED_MODEL_SCHEMA_VERSION`. -/
def savedModelSchemaVersion : Nat := 1

/-- The `SavedModel` proto assembled by `export`. -/
structure SavedModel where
  schemaVersion : Nat
  graphDef : GraphDef
  saverDef : SaverDef
  signatureDefs : List (String × SignatureDef)
deriving DecidableEq

/-- `_make_graph_def(root, signature_functions, object_saver)`, with its
side effects recorded as events.  The exported graph is created fresh (its
node counter starts at 0), mutated by `_map_resources`, the saver freeze and
`_generate_signatures`, snapshotted, and then dismantled by
`ops.dismantle_graph` — in the source the dismantle is the statement
directly after the snapshot, so a failure inside `_generate_signatures`
propagates without reaching either. -/
def makeGraphDef (root : RootObject)
    (signatureFunctions : List (String × ConcreteFunction)) :
    Except ExportError (GraphDef × List (String × SignatureDef) × SaverDef) ×
      List Event :=
  -- util.list_objects(root): the reachability walker (external collaborator)
  let accessibleObjects := root.objects
  let (objectMap, resourceMap, c1) := mapResources accessibleObjects 0
  -- object_saver.freeze(object_map=..., to_graph=exported_graph): external
  -- persistence collaborator; its descriptor is rebound through objectMap.
  let saverDef : SaverDef := ⟨objectMap.length⟩
  let events : List Event :=
    [Event.createExportedGraph, Event.mapResourcesStep, Event.freezeSaver,
     Event.generateSignaturesStep]
  match generateSignatures signatureFunctions resourceMap c1 with
  | .error e => (.error e, events)
  | .ok (signatures, c2) =>
      let graphDef : GraphDef := ⟨c2⟩
      (.ok (graphDef, signatures, saverDef),
       events ++ [Event.snapshotGraph, Event.dismantleGraph])

/-- `export(obj, export_dir, signatures)`, with its side effects recorded as
events (`export` is a Lean keyword, hence the `exportModel` name).
`writeSucceeds` models whether the external `file_io` collaborator succeeds
in writing the serialized container. -/
def exportModel (obj : RootObject) (signatures : SignaturesArg)
    (writeSucceeds : Bool) : Except ExportError Unit × List Event :=
  if obj.isCheckpointable = false then
    (.error (.notCheckpointable obj.objRepr), [])
  else
    -- variables directory and checkpoint are written by the persistence
    -- collaborator before signatures are canonicalized or validated
    let persistEvents : List Event :=
      [Event.createVariablesDir, Event.writeCheckpoint]
    match canonicalizeSignatures signatures with
    | .error e => (.error e, persistEvents)
    | .ok signatureFunctions =>
        match makeGraphDef obj signatureFunctions with
        | (.error e, graphEvents) => (.error e, persistEvents ++ graphEvents)
        | (.ok (graphDef, sigs, saverDef), graphEvents) =>
            let _savedModel : SavedModel :=
              ⟨savedModelSchemaVersion, graphDef, saverDef, sigs⟩
            let assembled := persistEvents ++ graphEvents ++
              [Event.assembleContainer]
            if writeSucceeds then
              (.ok (), assembled ++ [Event.writeSavedModel])
            else
              (.error .writeFailed, assembled)

/-! ### Lemmas about `dictGet` -/

theorem dictGet_mem {α β : Type} [DecidableEq α] {k : α} {v : β}
    {l : List (α × β)} (h : dictGet k l = some v) : (k, v) ∈ l := by
  induction l with
  | nil => simp [dictGet] at h
  | cons p rest ih =>
    rw [dictGet] at h
    split at h
    · rename_i heq
      obtain ⟨k', v'⟩ := p
      injection h with h
      subst h
      simp only at heq
      subst heq
      exact List.mem_cons_self _ _
    · exact List.mem_cons_of_mem _ (ih h)

theorem dictGet_eq_none {α β : Type} [DecidableEq α] {k : α}
    {l : List (α × β)} (h : ∀ p ∈ l, p.1 ≠ k) : dictGet k l = none := by
  induction l with
  | nil => rfl
  | cons p rest ih =>
    rw [dictGet]
    rw [if_neg (h p (List.mem_cons_self _ _))]
    exact ih fun q hq => h q (List.mem_cons_of_mem _ hq)

theorem dictGet_isSome {α β : Type} [DecidableEq α] {k : α}
    {l : List (α × β)} {v : β} (h : (k, v) ∈ l) :
    ∃ w, dictGet k l = some w := by
  induction l with
  | nil => simp at h
  | cons p rest ih =>
    rw [dictGet]
    by_cases hp : p.1 = k
    · exact ⟨p.2, if_pos hp⟩
    · rw [if_neg hp]
      rcases List.mem_cons.mp h with h | h
      · exact absurd (congrArg Prod.fst h.symm) hp
      · exact ih h

/-! ### The specification of `_map_resources` -/

/-- Structural facts about `_map_resources`: the counter only grows; every
new handle in the resource map is a freshly created node of the exported
graph; the new handles are pairwise distinct; every key of the object map is
a resource variable; and every key of the resource map is the handle of a
resource variable of the input list. -/
theorem mapResources_spec (objs : List TrackedObject) :
    ∀ (c : Nat) {om : List (TrackedObject × TrackedObject)}
      {rm : List (Tensor × Tensor)} {c' : Nat},
      mapResources objs c = (om, rm, c') →
      c ≤ c' ∧
      (∀ p ∈ rm, p.2.ctx = Ctx.exported ∧ c ≤ p.2.uid ∧ p.2.uid < c') ∧
      (rm.map fun p => p.2.uid).Nodup ∧
      (∀ p ∈ om, p.1.isResourceVariable = true) ∧
      (∀ p ∈ rm, ∃ o ∈ objs, o.isResourceVariable = true ∧
        o.handle? = some p.1) := by
  induction objs with
  | nil =>
    intro c om rm c' h
    rw [mapResources] at h
    injection h with h1 h2
    injection h2 with h2 h3
    subst h1; subst h2; subst h3
    refine ⟨le_refl _, ?_, ?_, ?_, ?_⟩ <;> simp
  | cons obj rest ih =>
    intro c om rm c' h
    cases obj with
    | resourceVariable i hd =>
      rw [mapResources] at h
      rcases hrec : mapResources rest (c + 1) with ⟨om', rm', c''⟩
      rw [hrec] at h
      simp only at h
      injection h with h1 h2
      injection h2 with h2 h3
      subst h1; subst h2; subst h3
      obtain ⟨hle, hfresh, hnodup, hkeys, horigin⟩ := ih (c + 1) hrec
      refine ⟨le_trans (Nat.le_succ c) hle, ?_, ?_, ?_, ?_⟩
      · intro p hp
        rcases List.mem_cons.mp hp with h | h
        · subst h
          exact ⟨rfl, le_refl c, lt_of_lt_of_le (Nat.lt_succ_self c) hle⟩
        · obtain ⟨h1, h2, h3⟩ := hfresh p h
          exact ⟨h1, le_trans (Nat.le_succ c) h2, h3⟩
      · rw [List.map_cons]
        refine List.nodup_cons.mpr ⟨?_, hnodup⟩
        intro hmem
        obtain ⟨p, hp, hpuid⟩ := List.mem_map.mp hmem
        have hc : p.2.uid = c := hpuid
        have hge := (hfresh p hp).2.1
        omega
      · intro p hp
        rcases List.mem_cons.mp hp with h | h
        · subst h; rfl
        · exact hkeys p h
      · intro p hp
        rcases List.mem_cons.mp hp with h | h
        · subst h
          exact ⟨.resourceVariable i hd, List.mem_cons_self _ _, rfl, rfl⟩
        · obtain ⟨o, ho, h1, h2⟩ := horigin p h
          exact ⟨o, List.mem_cons_of_mem _ ho, h1, h2⟩
    | otherResource i hd =>
      rw [mapResources] at h
      obtain ⟨hle, hfresh, hnodup, hkeys, horigin⟩ := ih c h
      refine ⟨hle, hfresh, hnodup, hkeys, ?_⟩
      intro p hp
      obtain ⟨o, ho, h1, h2⟩ := horigin p hp
      exact ⟨o, List.mem_cons_of_mem _ ho, h1, h2⟩
    | plain i =>
      rw [mapResources] at h
      obtain ⟨hle, hfresh, hnodup, hkeys, horigin⟩ := ih c h
      refine ⟨hle, hfresh, hnodup, hkeys, ?_⟩
      intro p hp
      obtain ⟨o, ho, h1, h2⟩ := horigin p hp
      exact ⟨o, List.mem_cons_of_mem _ ho, h1, h2⟩

/-! ### Lemmas about `_map_captured_resources_to_created_resources` -/

/-- If some capture's exterior tensor is missing from the resource map, the
capture mapping fails with an untracked-object error naming the interior
placeholder of an unmapped capture. -/
theorem mapCaptured_error_of_unmapped
    (captures rm : List (Tensor × Tensor))
    (h : ∃ p ∈ captures, dictGet p.1 rm = none) :
    ∃ interior, mapCapturedResourcesToCreatedResources captures rm =
      .error (.untrackedObject interior) ∧
      ∃ exterior, (exterior, interior) ∈ captures ∧
        dictGet exterior rm = none := by
  induction captures with
  | nil => simp at h
  | cons q rest ih =>
    obtain ⟨q0, hq0, hnone⟩ := h
    obtain ⟨ext, int⟩ := q
    rw [mapCapturedResourcesToCreatedResources]
    cases hget : dictGet ext rm with
    | none => exact ⟨int, rfl, ext, List.mem_cons_self _ _, hget⟩
    | some mapped =>
      have hq0' : q0 ∈ rest := by
        rcases List.mem_cons.mp hq0 with h | h
        · rw [h] at hnone
          simp only at hnone
          rw [hget] at hnone
          cases hnone
        · exact h
      obtain ⟨int', herr, ext', hmem, hn⟩ := ih ⟨q0, hq0', hnone⟩
      refine ⟨int', ?_, ext', List.mem_cons_of_mem _ hmem, hn⟩
      rw [herr]

/-- If the capture mapping succeeds, every capture's exterior tensor is in
the resource map, and every mapped value in the result is a value of the
resource map. -/
theorem mapCaptured_ok_spec
    (captures rm ec : List (Tensor × Tensor))
    (h : mapCapturedResourcesToCreatedResources captures rm = .ok ec) :
    (∀ p ∈ captures, ∃ v, dictGet p.1 rm = some v) ∧
    (∀ q ∈ ec, ∃ p ∈ rm, p.2 = q.2) := by
  induction captures generalizing ec with
  | nil =>
    rw [mapCapturedResourcesToCreatedResources] at h
    injection h with h
    subst h
    exact ⟨by simp, by simp⟩
  | cons q rest ih =>
    obtain ⟨ext, int⟩ := q
    rw [mapCapturedResourcesToCreatedResources] at h
    cases hget : dictGet ext rm with
    | none => rw [hget] at h; cases h
    | some mapped =>
      rw [hget] at h
      cases hrec : mapCapturedResourcesToCreatedResources rest rm with
      | error e => rw [hrec] at h; cases h
      | ok ec' =>
        rw [hrec] at h
        injection h with h
        subst h
        obtain ⟨h1, h2⟩ := ih ec' hrec
        refine ⟨?_, ?_⟩
        · intro p hp
          rcases List.mem_cons.mp hp with hh | hh
          · subst hh; exact ⟨mapped, hget⟩
          · exact h1 p hh
        · intro p hp
          rcases List.mem_cons.mp hp with hh | hh
          · subst hh
            exact ⟨(ext, mapped), dictGet_mem hget, rfl⟩
          · exact h2 p hh

/-! ### C3: `_map_resources` builds a bijection -/

/-- **C3**: for every enumerated list of reachable stateful objects,
resource remapping builds a bijection from original handles to new handles:
distinct original handles map to distinct newly created twin handles (which
are fresh nodes of the exported graph), every key of the resource map is the
handle of a resource variable of the list, and objects that own no resource
handle appear in neither the object map nor the resource map. -/
theorem map_resources_bijection
    (objs : List TrackedObject) (c : Nat)
    (om : List (TrackedObject × TrackedObject)) (rm : List (Tensor × Tensor))
    (c' : Nat) (h : mapResources objs c = (om, rm, c')) :
    (∀ k₁ k₂ v₁ v₂, k₁ ≠ k₂ → dictGet k₁ rm = some v₁ →
      dictGet k₂ rm = some v₂ → v₁ ≠ v₂) ∧
    (∀ p ∈ rm, p.2.ctx = Ctx.exported ∧ c ≤ p.2.uid ∧
      ∃ o ∈ objs, o.isResourceVariable = true ∧ o.handle? = some p.1) ∧
    (∀ obj ∈ objs, obj.handle? = none → dictGet obj om = none) := by
  obtain ⟨_, hfresh, hnodup, hkeys, horigin⟩ := mapResources_spec objs c h
  have hsnd : (rm.map Prod.snd).Nodup := by
    have : (rm.map fun p => p.2.uid) = (rm.map Prod.snd).map Tensor.uid := by
      rw [List.map_map]
      rfl
    exact List.Nodup.of_map Tensor.uid (this ▸ hnodup)
  refine ⟨?_, ?_, ?_⟩
  · intro k₁ k₂ v₁ v₂ hne h₁ h₂ hv
    subst hv
    have m₁ := dictGet_mem h₁
    have m₂ := dictGet_mem h₂
    have := List.inj_on_of_nodup_map hsnd m₁ m₂ rfl
    exact hne (congrArg Prod.fst this)
  · intro p hp
    obtain ⟨h1, h2, _⟩ := hfresh p hp
    exact ⟨h1, h2, horigin p hp⟩
  · intro obj hobj hnone
    refine dictGet_eq_none ?_
    intro p hp heq
    have hrv := hkeys p hp
    rw [heq] at hrv
    cases obj with
    | resourceVariable i hd => cases hnone
    | otherResource i hd => cases hnone
    | plain i => cases hrv

/-- A live resource handle in the eager context, for witnesses. -/
def eagerHandle (n : Nat) : Tensor :=
  ⟨Ctx.eager, n, 1, [none], "VarHandleOp_live_" ++ toString n, ""⟩

/-- An interior placeholder of a traced function body, for witnesses. -/
def interiorPlaceholder (n : Nat) (nm : String) : Tensor :=
  ⟨Ctx.interior, n, 1, [none], nm, nm⟩

/-- Witness for C3 at a concrete object list: two resource variables and a
plain object. -/
theorem map_resources_bijection_witness :
    (∀ k₁ k₂ v₁ v₂, k₁ ≠ k₂ →
      dictGet k₁ (mapResources [.resourceVariable 0 (eagerHandle 0),
        .plain 1, .resourceVariable 2 (eagerHandle 2)] 0).2.1 = some v₁ →
      dictGet k₂ (mapResources [.resourceVariable 0 (eagerHandle 0),
        .plain 1, .resourceVariable 2 (eagerHandle 2)] 0).2.1 = some v₂ →
      v₁ ≠ v₂) ∧
    (∀ p ∈ (mapResources [.resourceVariable 0 (eagerHandle 0),
        .plain 1, .resourceVariable 2 (eagerHandle 2)] 0).2.1,
      p.2.ctx = Ctx.exported ∧ 0 ≤ p.2.uid ∧
      ∃ o ∈ [TrackedObject.resourceVariable 0 (eagerHandle 0),
        .plain 1, .resourceVariable 2 (eagerHandle 2)],
        o.isResourceVariable = true ∧ o.handle? = some p.1) ∧
    (∀ obj ∈ [TrackedObject.resourceVariable 0 (eagerHandle 0),
        .plain 1, .resourceVariable 2 (eagerHandle 2)],
      obj.handle? = none →
      dictGet obj (mapResources [.resourceVariable 0 (eagerHandle 0),
        .plain 1, .resourceVariable 2 (eagerHandle 2)] 0).1 = none) :=
  map_resources_bijection
    [.resourceVariable 0 (eagerHandle 0), .plain 1,
     .resourceVariable 2 (eagerHandle 2)] 0 _ _ _ rfl

/-! ### C10: only resource variables receive twins -/

/-- **C10**: resource remapping creates twins only for resource variables:
a reachable object owning some other kind of resource handle is placed in
neither the object map nor the resource map (provided no resource variable
aliases its handle), so a signature function capturing that handle fails
with the untracked-state error even though the owning object is tracked
from the root. -/
theorem non_variable_resource_is_untracked
    (objs : List TrackedObject) (c : Nat)
    (om : List (TrackedObject × TrackedObject)) (rm : List (Tensor × Tensor))
    (c' : Nat) (h : mapResources objs c = (om, rm, c'))
    (i : Nat) (hdl : Tensor)
    (hobj : TrackedObject.otherResource i hdl ∈ objs)
    (hnoalias : ∀ o ∈ objs, o.isResourceVariable = true →
      o.handle? ≠ some hdl)
    (f : ConcreteFunction) (interior : Tensor)
    (hcap : (hdl, interior) ∈ f.captures) :
    dictGet (TrackedObject.otherResource i hdl) om = none ∧
    dictGet hdl rm = none ∧
    ∃ int', mapCapturedResourcesToCreatedResources f.captures rm =
      .error (.untrackedObject int') := by
  obtain ⟨_, _, _, hkeys, horigin⟩ := mapResources_spec objs c h
  have hrmnone : dictGet hdl rm = none := by
    refine dictGet_eq_none ?_
    intro p hp heq
    obtain ⟨o, ho, hrv, hh⟩ := horigin p hp
    rw [heq] at hh
    exact hnoalias o ho hrv hh
  refine ⟨?_, hrmnone, ?_⟩
  · refine dictGet_eq_none ?_
    intro p hp heq
    have hrv := hkeys p hp
    rw [heq] at hrv
    cases hrv
  · obtain ⟨int', herr, _⟩ :=
      mapCaptured_error_of_unmapped f.captures rm
        ⟨(hdl, interior), hcap, hrmnone⟩
    exact ⟨int', herr⟩

/-- Witness for C10: one tracked non-variable resource owner whose handle is
captured by a function. -/
theorem non_variable_resource_is_untracked_witness :
    dictGet (TrackedObject.otherResource 1 (eagerHandle 1))
      (mapResources [.resourceVariable 0 (eagerHandle 0),
        .otherResource 1 (eagerHandle 1)] 0).1 = none ∧
    dictGet (eagerHandle 1)
      (mapResources [.resourceVariable 0 (eagerHandle 0),
        .otherResource 1 (eagerHandle 1)] 0).2.1 = none ∧
    ∃ int', mapCapturedResourcesToCreatedResources
      [(eagerHandle 1, interiorPlaceholder 7 "table_handle")]
      (mapResources [.resourceVariable 0 (eagerHandle 0),
        .otherResource 1 (eagerHandle 1)] 0).2.1 =
      .error (.untrackedObject int') :=
  non_variable_resource_is_untracked
    [.resourceVariable 0 (eagerHandle 0), .otherResource 1 (eagerHandle 1)]
    0 _ _ _ rfl 1 (eagerHandle 1) (by decide)
    (by decide)
    ⟨"f", [(eagerHandle 1, interiorPlaceholder 7 "table_handle")], [],
      fun _ => PyVal.list []⟩
    (interiorPlaceholder 7 "table_handle") (by decide)

/-! ### C4: the input rebinder preserves order and names placeholders -/

/-- The per-input contract of `_map_function_inputs_to_created_inputs`:
a captured input is replaced by its mapped resource tensor; an argument
input is replaced by an exported-graph placeholder with the argument's
dtype and shape, named by combining the signature key and the argument
name. -/
def reboundInput (exportCaptures : List (Tensor × Tensor))
    (signatureKey : String) (ph m : Tensor) : Prop :=
  match dictGet ph exportCaptures with
  | some r => m = r
  | none => m.ctx = Ctx.exported ∧ m.dtype = ph.dtype ∧ m.shape = ph.shape ∧
      m.opName = signatureKey ++ "_" ++ ph.userSpecifiedName

/-- **C4**: on success the rebinder returns one substituted input per
function input, in exactly the function's original input order (captured
inputs replaced by their mapped resource tensor, argument inputs by a fresh
placeholder named `<signature_key>_<argument name>`), and the
exterior-placeholder table records exactly the argument names in order. -/
theorem map_function_inputs_order_and_naming
    (inputs : List Tensor) (ec : List (Tensor × Tensor))
    (signatureKey functionName : String) (c : Nat)
    (mapped : List Tensor) (ext : List (String × Tensor)) (c' : Nat)
    (h : mapFunctionInputsToCreatedInputs inputs ec signatureKey
      functionName c = .ok (mapped, ext, c')) :
    mapped.length = inputs.length ∧
    List.Forall₂ (reboundInput ec signatureKey) inputs mapped ∧
    ext.map Prod.fst =
      (inputs.filter fun ph => (dictGet ph ec).isNone).map
        Tensor.userSpecifiedName := by
  induction inputs generalizing c mapped ext c' with
  | nil =>
    rw [mapFunctionInputsToCreatedInputs] at h
    injection h with h
    injection h with h1 h2
    injection h2 with h2 h3
    subst h1; subst h2
    exact ⟨rfl, .nil, rfl⟩
  | cons ph rest ih =>
    rw [mapFunctionInputsToCreatedInputs] at h
    cases hget : dictGet ph ec with
    | some r =>
      rw [hget] at h
      cases hrec : mapFunctionInputsToCreatedInputs rest ec signatureKey
          functionName c with
      | error e => rw [hrec] at h; cases h
      | ok res =>
        obtain ⟨m', e', c''⟩ := res
        rw [hrec] at h
        injection h with h
        injection h with h1 h2
        injection h2 with h2 h3
        subst h1; subst h2; subst h3
        obtain ⟨hl, hf, he⟩ := ih c m' e' c'' hrec
        refine ⟨by simp [hl], ?_, ?_⟩
        · refine List.Forall₂.cons ?_ hf
          rw [reboundInput, hget]
        · rw [List.filter_cons]
          simp only [hget, Option.isNone_some, Bool.false_eq_true, if_false]
          exact he
    | none =>
      rw [hget] at h
      by_cases hname : ph.userSpecifiedName ≠ ph.opName
      · rw [if_pos hname] at h
        cases h
      · rw [if_neg hname] at h
        cases hrec : mapFunctionInputsToCreatedInputs rest ec signatureKey
            functionName (c + 1) with
        | error e => rw [hrec] at h; cases h
        | ok res =>
          obtain ⟨m', e', c''⟩ := res
          rw [hrec] at h
          injection h with h
          injection h with h1 h2
          injection h2 with h2 h3
          subst h1; subst h2; subst h3
          obtain ⟨hl, hf, he⟩ := ih (c + 1) m' e' c'' hrec
          refine ⟨by simp [hl], ?_, ?_⟩
          · refine List.Forall₂.cons ?_ hf
            rw [reboundInput, hget]
            exact ⟨rfl, rfl, rfl, rfl⟩
          · rw [List.filter_cons]
            simp only [hget, Option.isNone_none, if_true]
            rw [List.map_cons, List.map_cons, he]

/-- A twin resource handle in the exported graph, for witnesses. -/
def twinHandle50 : Tensor :=
  ⟨Ctx.exported, 50, 1, [none], "VarHandleOp_50", ""⟩

/-- The exterior placeholder the rebinder creates for argument `x` of
signature `serve` at counter 60, for witnesses. -/
def servePlaceholder60 : Tensor :=
  ⟨Ctx.exported, 60, 1, [none], "serve_x", ""⟩

/-- Witness for C4: one captured input followed by one argument input
named `x`, rebound for signature key `serve`. -/
theorem map_function_inputs_order_and_naming_witness :
    ([twinHandle50, servePlaceholder60] : List Tensor).length =
      ([interiorPlaceholder 1 "vh", interiorPlaceholder 2 "x"] :
        List Tensor).length ∧
    List.Forall₂
      (reboundInput [(interiorPlaceholder 1 "vh", twinHandle50)] "serve")
      [interiorPlaceholder 1 "vh", interiorPlaceholder 2 "x"]
      [twinHandle50, servePlaceholder60] ∧
    ([("x", servePlaceholder60)] : List (String × Tensor)).map Prod.fst =
      (([interiorPlaceholder 1 "vh", interiorPlaceholder 2 "x"] :
          List Tensor).filter fun ph =>
        (dictGet ph [(interiorPlaceholder 1 "vh", twinHandle50)]).isNone).map
        Tensor.userSpecifiedName :=
  map_function_inputs_order_and_naming
    [interiorPlaceholder 1 "vh", interiorPlaceholder 2 "x"]
    [(interiorPlaceholder 1 "vh", twinHandle50)]
    "serve" "f" 60 _ _ _ rfl

/-! ### C1: no rebound input is a live-context handle -/

/-- The inputs produced by the rebinder, characterized by origin: each is
either a value of the capture table or a placeholder freshly created in the
exported graph while this call ran. -/
theorem mapFunctionInputs_member_spec
    (inputs : List Tensor) (ec : List (Tensor × Tensor))
    (signatureKey functionName : String) (c : Nat)
    (mapped : List Tensor) (ext : List (String × Tensor)) (c' : Nat)
    (h : mapFunctionInputsToCreatedInputs inputs ec signatureKey
      functionName c = .ok (mapped, ext, c')) :
    ∀ t ∈ mapped, (∃ q ∈ ec, q.2 = t) ∨
      (t.ctx = Ctx.exported ∧ c ≤ t.uid) := by
  induction inputs generalizing c mapped ext c' with
  | nil =>
    rw [mapFunctionInputsToCreatedInputs] at h
    injection h with h
    injection h with h1 h2
    subst h1
    simp
  | cons ph rest ih =>
    rw [mapFunctionInputsToCreatedInputs] at h
    cases hget : dictGet ph ec with
    | some r =>
      rw [hget] at h
      cases hrec : mapFunctionInputsToCreatedInputs rest ec signatureKey
          functionName c with
      | error e => rw [hrec] at h; cases h
      | ok res =>
        obtain ⟨m', e', c''⟩ := res
        rw [hrec] at h
        injection h with h
        injection h with h1 h2
        subst h1
        intro t ht
        rcases List.mem_cons.mp ht with hh | hh
        · subst hh
          exact Or.inl ⟨(ph, t), dictGet_mem hget, rfl⟩
        · exact ih c m' e' c'' hrec t hh
    | none =>
      rw [hget] at h
      by_cases hname : ph.userSpecifiedName ≠ ph.opName
      · rw [if_pos hname] at h
        cases h
      · rw [if_neg hname] at h
        cases hrec : mapFunctionInputsToCreatedInputs rest ec signatureKey
            functionName (c + 1) with
        | error e => rw [hrec] at h; cases h
        | ok res =>
          obtain ⟨m', e', c''⟩ := res
          rw [hrec] at h
          injection h with h
          injection h with h1 h2
          subst h1
          intro t ht
          rcases List.mem_cons.mp ht with hh | hh
          · subst hh
            exact Or.inr ⟨rfl, le_refl c⟩
          · rcases ih (c + 1) m' e' c'' hrec t hh with hq | ⟨h1, h2⟩
            · exact Or.inl hq
            · exact Or.inr ⟨h1, le_trans (Nat.le_succ c) h2⟩

/-- **C1**: whenever the capture table comes from a resource map whose
values live in the exported graph, every input passed to the function call
node is either a twin handle taken from the resource map or a placeholder
freshly created in the exportable graph — never an original live-context
(eager) handle. -/
theorem rebound_inputs_never_eager
    (captures rm : List (Tensor × Tensor)) (inputs : List Tensor)
    (signatureKey functionName : String) (c : Nat)
    (ec : List (Tensor × Tensor)) (mapped : List Tensor)
    (ext : List (String × Tensor)) (c' : Nat)
    (hrm : ∀ p ∈ rm, p.2.ctx = Ctx.exported)
    (hec : mapCapturedResourcesToCreatedResources captures rm = .ok ec)
    (hmap : mapFunctionInputsToCreatedInputs inputs ec signatureKey
      functionName c = .ok (mapped, ext, c')) :
    ∀ t ∈ mapped,
      ((∃ p ∈ rm, p.2 = t) ∨ (t.ctx = Ctx.exported ∧ c ≤ t.uid)) ∧
      t.ctx ≠ Ctx.eager := by
  intro t ht
  rcases mapFunctionInputs_member_spec inputs ec signatureKey functionName c
      mapped ext c' hmap t ht with ⟨q, hq, hqt⟩ | ⟨h1, h2⟩
  · obtain ⟨p, hp, hpq⟩ := (mapCaptured_ok_spec captures rm ec hec).2 q hq
    have hctx : t.ctx = Ctx.exported := by
      rw [← hqt, ← hpq]
      exact hrm p hp
    exact ⟨Or.inl ⟨p, hp, hpq.trans hqt⟩, by rw [hctx]; simp⟩
  · exact ⟨Or.inr ⟨h1, h2⟩, by rw [h1]; simp⟩

/-- Witness for C1 at a concrete function with one captured resource and
one argument. -/
theorem rebound_inputs_never_eager_witness :
    (((∃ p ∈ [(eagerHandle 0, twinHandle50)], p.2 = twinHandle50) ∨
        (twinHandle50.ctx = Ctx.exported ∧ 60 ≤ twinHandle50.uid)) ∧
      twinHandle50.ctx ≠ Ctx.eager) ∧
    (((∃ p ∈ [(eagerHandle 0, twinHandle50)], p.2 = servePlaceholder60) ∨
        (servePlaceholder60.ctx = Ctx.exported ∧
          60 ≤ servePlaceholder60.uid)) ∧
      servePlaceholder60.ctx ≠ Ctx.eager) :=
  ⟨rebound_inputs_never_eager
    [(eagerHandle 0, interiorPlaceholder 1 "vh")]
    [(eagerHandle 0, twinHandle50)]
    [interiorPlaceholder 1 "vh", interiorPlaceholder 2 "x"]
    "serve" "f" 60 _ _ _ _ (by decide) rfl rfl
    twinHandle50 (List.mem_cons_self _ _),
   rebound_inputs_never_eager
    [(eagerHandle 0, interiorPlaceholder 1 "vh")]
    [(eagerHandle 0, twinHandle50)]
    [interiorPlaceholder 1 "vh", interiorPlaceholder 2 "x"]
    "serve" "f" 60 _ _ _ _ (by decide) rfl rfl
    servePlaceholder60
    (List.mem_cons_of_mem _ (List.mem_cons_self _ _))⟩

/-! ### C5: normalization of flat output sequences -/

/-- A sequence whose elements are all tensors is flat. -/
theorem isFlat_of_all_tensors (xs : List PyVal)
    (h : ∀ v ∈ xs, ∃ t, v = PyVal.tensor t) :
    isFlat (.list xs) = true := by
  rw [isFlat]
  show sameStructureList ((nestFlattenList xs).map PyVal.tensor) xs = true
  induction xs with
  | nil => rfl
  | cons x rest ih =>
    obtain ⟨t, ht⟩ := h x (List.mem_cons_self _ _)
    subst ht
    rw [nestFlattenList]
    show sameStructureList
      ((nestFlatten (.tensor t) ++ nestFlattenList rest).map PyVal.tensor)
      (.tensor t :: rest) = true
    rw [nestFlatten, List.singleton_append, List.map_cons]
    rw [sameStructureList]
    rw [ih fun v hv => h v (List.mem_cons_of_mem _ hv)]
    rfl

/-- The entries of the enumerated output dictionary, positionally: entry
`j` of an enumeration starting at `i` pairs key `output_<i+j>` with the
`j`-th output. -/
theorem enumerateOutputs_getElem? (xs : List PyVal) :
    ∀ (i j : Nat), (enumerateOutputs i xs)[j]? =
      xs[j]?.map fun v => ("output_" ++ toString (i + j), v) := by
  induction xs with
  | nil => intro i j; rw [enumerateOutputs]; simp
  | cons x rest ih =>
    intro i j
    cases j with
    | zero => rw [enumerateOutputs]; simp
    | succ j' =>
      rw [enumerateOutputs, List.getElem?_cons_succ, List.getElem?_cons_succ,
        ih (i + 1) j']
      have : i + 1 + j' = i + (j' + 1) := by omega
      rw [this]

/-- The values of the enumerated output dictionary are the original
sequence, in order. -/
theorem enumerateOutputs_map_snd (xs : List PyVal) :
    ∀ i, (enumerateOutputs i xs).map Prod.snd = xs := by
  induction xs with
  | nil => intro i; rfl
  | cons x rest ih =>
    intro i
    rw [enumerateOutputs, List.map_cons, ih (i + 1)]

/-- The keys of the enumerated output dictionary are `output_<i+j>` for
positions `j` below the length. -/
theorem enumerateOutputs_map_fst (xs : List PyVal) :
    ∀ i, (enumerateOutputs i xs).map Prod.fst =
      (List.range xs.length).map fun j => "output_" ++ toString (i + j) := by
  induction xs with
  | nil => intro i; rfl
  | cons x rest ih =>
    intro i
    rw [enumerateOutputs, List.map_cons, ih (i + 1), List.length_cons,
      List.range_succ_eq_map, List.map_cons, List.map_map]
    refine congrArg₂ List.cons (by rw [Nat.add_zero]) ?_
    refine List.map_congr_left ?_
    intro j hj
    show "output_" ++ toString (i + 1 + j) = "output_" ++ toString (i + (j + 1))
    have : i + 1 + j = i + (j + 1) := by omega
    rw [this]

/-- **C5**: normalizing a flat sequence of `n` outputs produces exactly one
key per element, named `output_0 .. output_<n-1>` in the sequence's
original order, and reconstructing the sequence from the mapping in key
order reproduces the original sequence. -/
theorem normalize_outputs_flat_roundtrip
    (xs : List PyVal) (functionName signatureKey : String)
    (h : ∀ v ∈ xs, ∃ t, v = PyVal.tensor t) :
    normalizeOutputs (.list xs) functionName signatureKey =
      .ok (enumerateOutputs 0 xs) ∧
    (enumerateOutputs 0 xs).length = xs.length ∧
    (enumerateOutputs 0 xs).map Prod.fst =
      (List.range xs.length).map (fun j => "output_" ++ toString j) ∧
    (enumerateOutputs 0 xs).map Prod.snd = xs ∧
    (∀ (j : Nat), (enumerateOutputs 0 xs)[j]? =
      xs[j]?.map fun v => ("output_" ++ toString j, v)) := by
  refine ⟨?_, ?_, ?_, enumerateOutputs_map_snd xs 0, ?_⟩
  · rw [normalizeOutputs]
    show (if isFlat (.list xs) then _ else _) = _
    rw [isFlat_of_all_tensors xs h]
    rfl
  · have := congrArg List.length (enumerateOutputs_map_snd xs 0)
    rwa [List.length_map] at this
  · rw [enumerateOutputs_map_fst xs 0]
    refine List.map_congr_left ?_
    intro j hj
    rw [Nat.zero_add]
  · intro j
    rw [enumerateOutputs_getElem? xs 0 j]
    cases xs[j]? with
    | none => rfl
    | some v => rw [Nat.zero_add]

/-- Witness for C5 at a two-tensor output sequence. -/
theorem normalize_outputs_flat_roundtrip_witness :
    normalizeOutputs (.list [.tensor (eagerHandle 3), .tensor (eagerHandle 4)])
      "f" "serve" =
      .ok (enumerateOutputs 0
        [.tensor (eagerHandle 3), .tensor (eagerHandle 4)]) ∧
    (enumerateOutputs 0
      [PyVal.tensor (eagerHandle 3), .tensor (eagerHandle 4)]).length =
      ([PyVal.tensor (eagerHandle 3), .tensor (eagerHandle 4)] :
        List PyVal).length ∧
    (enumerateOutputs 0
      [PyVal.tensor (eagerHandle 3), .tensor (eagerHandle 4)]).map Prod.fst =
      (List.range ([PyVal.tensor (eagerHandle 3), .tensor (eagerHandle 4)] :
        List PyVal).length).map (fun j => "output_" ++ toString j) ∧
    (enumerateOutputs 0
      [PyVal.tensor (eagerHandle 3), .tensor (eagerHandle 4)]).map Prod.snd =
      [PyVal.tensor (eagerHandle 3), .tensor (eagerHandle 4)] ∧
    (∀ (j : Nat), (enumerateOutputs 0
      [PyVal.tensor (eagerHandle 3), .tensor (eagerHandle 4)])[j]? =
      ([PyVal.tensor (eagerHandle 3), .tensor (eagerHandle 4)] :
        List PyVal)[j]?.map fun v => ("output_" ++ toString j, v)) :=
  normalize_outputs_flat_roundtrip
    [.tensor (eagerHandle 3), .tensor (eagerHandle 4)] "f" "serve"
    (by intro v hv
        rcases List.mem_cons.mp hv with h | h
        · exact ⟨eagerHandle 3, h⟩
        · rcases List.mem_cons.mp h with h | h
          · exact ⟨eagerHandle 4, h⟩
          · cases h)

/-! ### C6: contents of the structure-error messages -/

/-- A string occurs in any string assembled around it. -/
theorem containsStr_middle (pre needle post : String) :
    containsStr needle (pre ++ needle ++ post) := by
  show needle.data <:+: (pre ++ needle ++ post).data
  rw [String.data_append, String.data_append]
  exact List.infix_append _ _ _

/-- The error returned by the output-dictionary validation loop is a
non-Tensor-value error for some key/value pair of the dictionary. -/
theorem checkDictOutputs_some (functionName : String) :
    ∀ (kvs : List (String × PyVal)) (e : ExportError),
      checkDictOutputs functionName kvs = some e →
      ∃ v k, e = .nonTensorValue v k functionName ∧ (k, v) ∈ kvs := by
  intro kvs
  induction kvs with
  | nil => intro e h; cases h
  | cons kv rest ih =>
    intro e h
    obtain ⟨k0, v0⟩ := kv
    cases v0 with
    | tensor t =>
      rw [checkDictOutputs] at h
      obtain ⟨v, k, he, hm⟩ := ih e h
      exact ⟨v, k, he, List.mem_cons_of_mem _ hm⟩
    | list xs =>
      rw [checkDictOutputs] at h
      injection h with h
      exact ⟨.list xs, k0, h.symm, List.mem_cons_self _ _⟩
    | dict kvs' =>
      rw [checkDictOutputs] at h
      injection h with h
      exact ⟨.dict kvs', k0, h.symm, List.mem_cons_self _ _⟩

/-- **C6 (amended)**: every normalization failure is a structure error of
one of two forms.  The non-flat-output error's message includes the
signature key, the function name and the offending value; the
non-Tensor-dictionary-value error's message includes the function name, the
offending value and the offending key (the signature key does not appear in
the Python format string of that branch). -/
theorem normalize_outputs_error_messages
    (outputs : PyVal) (functionName signatureKey : String) (e : ExportError)
    (h : normalizeOutputs outputs functionName signatureKey = .error e) :
    (∃ v k, e = .nonTensorValue v k functionName ∧ (
      containsStr (pyValRepr v) e.message ∧ containsStr k e.message ∧
      containsStr functionName e.message)) ∨
    (∃ ov, e = .nonFlat ov functionName signatureKey ∧ (
      containsStr (pyValRepr ov) e.message ∧
      containsStr functionName e.message ∧
      containsStr signatureKey e.message)) := by
  cases outputs with
  | dict kvs =>
    rw [normalizeOutputs] at h
    cases hch : checkDictOutputs functionName kvs with
    | none => rw [hch] at h; cases h
    | some e' =>
      rw [hch] at h
      injection h with h
      subst h
      obtain ⟨v, k, he, _⟩ := checkDictOutputs_some functionName kvs e' hch
      subst he
      refine Or.inl ⟨v, k, rfl, ?_, ?_, ?_⟩
      · have hmsg : (ExportError.nonTensorValue v k functionName).message =
            "Got a dictionary containing non-Tensor value " ++ pyValRepr v ++
            (" for key " ++ k ++
             " in the output of the function " ++ functionName ++
             " used to generate a SavedModel " ++
             "signature. Dictionaries outputs for functions used as " ++
             "signatures should have one Tensor output per string key.") := by
          rw [ExportError.message]
          simp [String.append_assoc]
        rw [hmsg]
        exact containsStr_middle _ _ _
      · have hmsg : (ExportError.nonTensorValue v k functionName).message =
            ("Got a dictionary containing non-Tensor value " ++ pyValRepr v ++
             " for key ") ++ k ++
            (" in the output of the function " ++ functionName ++
             " used to generate a SavedModel " ++
             "signature. Dictionaries outputs for functions used as " ++
             "signatures should have one Tensor output per string key.") := by
          rw [ExportError.message]
          simp [String.append_assoc]
        rw [hmsg]
        exact containsStr_middle _ _ _
      · have hmsg : (ExportError.nonTensorValue v k functionName).message =
            ("Got a dictionary containing non-Tensor value " ++ pyValRepr v ++
             " for key " ++ k ++
             " in the output of the function ") ++ functionName ++
            (" used to generate a SavedModel " ++
             "signature. Dictionaries outputs for functions used as " ++
             "signatures should have one Tensor output per string key.") := by
          rw [ExportError.message]
          simp [String.append_assoc]
        rw [hmsg]
        exact containsStr_middle _ _ _
  | tensor t =>
    rw [normalizeOutputs] at h
    have hft : isFlat (.list [.tensor t]) = true := by
      refine isFlat_of_all_tensors [.tensor t] ?_
      intro v hv
      rcases List.mem_cons.mp hv with hv | hv
      · exact ⟨t, hv⟩
      · cases hv
    rw [hft] at h
    rw [if_pos rfl] at h
    cases h
  | list xs =>
    rw [normalizeOutputs] at h
    by_cases hf : isFlat (.list xs) = true
    · rw [hf, if_pos rfl] at h
      cases h
    · rw [if_neg hf] at h
      injection h with h
      subst h
      refine Or.inr ⟨.list xs, rfl, ?_, ?_, ?_⟩
      · have hmsg : (ExportError.nonFlat (.list xs) functionName
            signatureKey).message =
            "Got non-flat outputs '" ++ pyValRepr (.list xs) ++
            ("' from '" ++ functionName ++ "' for SavedModel " ++
             "signature '" ++ signatureKey ++
             "'. Signatures have one Tensor per " ++
             "output, so to have predictable names Python functions used " ++
             "to generate these signatures should avoid outputting " ++
             "Tensors in nested structures.") := by
          rw [ExportError.message]
          simp [String.append_assoc]
        rw [hmsg]
        exact containsStr_middle _ _ _
      · have hmsg : (ExportError.nonFlat (.list xs) functionName
            signatureKey).message =
            ("Got non-flat outputs '" ++ pyValRepr (.list xs) ++ "' from '")
            ++ functionName ++
            ("' for SavedModel " ++ "signature '" ++ signatureKey ++
             "'. Signatures have one Tensor per " ++
             "output, so to have predictable names Python functions used " ++
             "to generate these signatures should avoid outputting " ++
             "Tensors in nested structures.") := by
          rw [ExportError.message]
          simp [String.append_assoc]
        rw [hmsg]
        exact containsStr_middle _ _ _
      · have hmsg : (ExportError.nonFlat (.list xs) functionName
            signatureKey).message =
            ("Got non-flat outputs '" ++ pyValRepr (.list xs) ++ "' from '"
             ++ functionName ++ "' for SavedModel " ++ "signature '")
            ++ signatureKey ++
            ("'. Signatures have one Tensor per " ++
             "output, so to have predictable names Python functions used " ++
             "to generate these signatures should avoid outputting " ++
             "Tensors in nested structures.") := by
          rw [ExportError.message]
          simp [String.append_assoc]
        rw [hmsg]
        exact containsStr_middle _ _ _

/-- Witness for the amended C6 at a concrete non-flat output. -/
theorem normalize_outputs_error_messages_witness :
    (∃ v k, (ExportError.nonFlat
        (.list [.list [.tensor (eagerHandle 5)]]) "f" "serve") =
        .nonTensorValue v k "f" ∧ (
      containsStr (pyValRepr v) (ExportError.nonFlat
        (.list [.list [.tensor (eagerHandle 5)]]) "f" "serve").message ∧
      containsStr k (ExportError.nonFlat
        (.list [.list [.tensor (eagerHandle 5)]]) "f" "serve").message ∧
      containsStr "f" (ExportError.nonFlat
        (.list [.list [.tensor (eagerHandle 5)]]) "f" "serve").message)) ∨
    (∃ ov, (ExportError.nonFlat
        (.list [.list [.tensor (eagerHandle 5)]]) "f" "serve") =
        .nonFlat ov "f" "serve" ∧ (
      containsStr (pyValRepr ov) (ExportError.nonFlat
        (.list [.list [.tensor (eagerHandle 5)]]) "f" "serve").message ∧
      containsStr "f" (ExportError.nonFlat
        (.list [.list [.tensor (eagerHandle 5)]]) "f" "serve").message ∧
      containsStr "serve" (ExportError.nonFlat
        (.list [.list [.tensor (eagerHandle 5)]]) "f" "serve").message)) :=
  normalize_outputs_error_messages
    (.list [.list [.tensor (eagerHandle 5)]]) "f" "serve" _ rfl

set_option maxRecDepth 40000 in
/-- **C6 counterexample**: the structure error raised for a non-Tensor
value in an output dictionary does not include the signature key in its
message (the claim says every structure error's message includes the
signature key). -/
theorem normalize_outputs_dict_error_lacks_signature_key :
    normalizeOutputs (.dict [("a", .list [])]) "f" "servingkey0" =
      .error (.nonTensorValue (.list []) "a" "f") ∧
    ¬ containsStr "servingkey0"
      (ExportError.nonTensorValue (.list []) "a" "f").message :=
  ⟨rfl, by decide⟩

/-! ### C2: untracked captures abort signature generation -/

/-- If the per-signature processing succeeds, the capture mapping for that
function succeeded. -/
theorem processSignature_ok_captures
    (signatureKey : String) (func : ConcreteFunction)
    (rm : List (Tensor × Tensor)) (c : Nat) {r : SignatureDef × Nat}
    (h : processSignature signatureKey func rm c = .ok r) :
    ∃ ec, mapCapturedResourcesToCreatedResources func.captures rm =
      .ok ec := by
  rw [processSignature] at h
  cases hmc : mapCapturedResourcesToCreatedResources func.captures rm with
  | error e => rw [hmc] at h; cases h
  | ok ec => exact ⟨ec, rfl⟩

/-- If the fold of `_generate_signatures` succeeds, every capture of every
processed function was found in the resource map. -/
theorem generateSignaturesGo_ok_all_captures_mapped
    (rm : List (Tensor × Tensor)) (l : List (String × ConcreteFunction)) :
    ∀ (c : Nat) (res : List (String × SignatureDef) × Nat),
      generateSignaturesGo rm l c = .ok res →
      ∀ p ∈ l, ∀ q ∈ p.2.captures, ∃ v, dictGet q.1 rm = some v := by
  induction l with
  | nil => intro c res h p hp; cases hp
  | cons kf rest ih =>
    intro c res h p hp
    obtain ⟨k0, f0⟩ := kf
    rw [generateSignaturesGo] at h
    cases hps : processSignature k0 f0 rm c with
    | error e => rw [hps] at h; cases h
    | ok r =>
      obtain ⟨sd, c'⟩ := r
      rw [hps] at h
      dsimp only at h
      cases hgo : generateSignaturesGo rm rest c' with
      | error e => rw [hgo] at h; cases h
      | ok r2 =>
        rcases List.mem_cons.mp hp with hh | hh
        · subst hh
          intro q hq
          obtain ⟨ec, hec⟩ := processSignature_ok_captures k0 f0 rm c hps
          exact (mapCaptured_ok_spec f0.captures rm ec hec).1 q hq
        · exact ih c' r2 hgo p hh

/-- **C2**: if a signature function captures a live resource handle absent
from the resource map, processing that function fails with the
untracked-state error — whose message names the interior reference — at
every graph counter (so no signature descriptor is built for it), and
signature generation as a whole never succeeds. -/
theorem untracked_capture_fails_export
    (signatureFunctions : List (String × ConcreteFunction))
    (rm : List (Tensor × Tensor)) (c : Nat)
    (signatureKey : String) (func : ConcreteFunction)
    (hmem : (signatureKey, func) ∈ signatureFunctions)
    (exterior interior : Tensor)
    (hcap : (exterior, interior) ∈ func.captures)
    (hunmapped : dictGet exterior rm = none) :
    (∃ int',
      (∀ c0 : Nat, processSignature signatureKey func rm c0 =
        .error (.untrackedObject int')) ∧
      (∃ ext', (ext', int') ∈ func.captures ∧ dictGet ext' rm = none) ∧
      containsStr (tensorRepr int')
        (ExportError.untrackedObject int').message) ∧
    ∀ res, generateSignatures signatureFunctions rm c ≠ .ok res := by
  obtain ⟨int', herr, hw⟩ :=
    mapCaptured_error_of_unmapped func.captures rm
      ⟨(exterior, interior), hcap, hunmapped⟩
  constructor
  · refine ⟨int', ?_, hw, ?_⟩
    · intro c0
      rw [processSignature, herr]
    · have hmsg : (ExportError.untrackedObject int').message =
          ("Tried to export a function which references untracked " ++
           "stateful " ++ "object ") ++ tensorRepr int' ++
          (". Stateful TensorFlow objects (e.g. tf.Variable) must " ++
           "be tracked by the main object. Objects may be tracked by " ++
           "assigning them to an attribute of another tracked object, " ++
           "or to " ++ "an attribute of the main object directly.") := by
        rw [ExportError.message]
        simp [String.append_assoc]
      rw [hmsg]
      exact containsStr_middle _ _ _
  · intro res hok
    rw [generateSignatures] at hok
    have hmem' : (signatureKey, func) ∈ sortSignatureItems signatureFunctions := by
      rw [sortSignatureItems]
      exact (List.mem_insertionSort _).mpr hmem
    obtain ⟨v, hv⟩ :=
      generateSignaturesGo_ok_all_captures_mapped rm
        (sortSignatureItems signatureFunctions) c res hok
        (signatureKey, func) hmem' (exterior, interior) hcap
    rw [hv] at hunmapped
    cases hunmapped

/-- A signature function that captures a live handle, for witnesses. -/
def captureOnlyFunction : ConcreteFunction :=
  ⟨"f", [(eagerHandle 0, interiorPlaceholder 1 "vh")],
   [interiorPlaceholder 1 "vh"], fun _ => PyVal.list []⟩

/-- Witness for C2: a single signature whose function captures a handle
missing from an empty resource map. -/
theorem untracked_capture_fails_export_witness :
    (∃ int',
      (∀ c0 : Nat, processSignature "serve" captureOnlyFunction [] c0 =
        .error (.untrackedObject int')) ∧
      (∃ ext', (ext', int') ∈ captureOnlyFunction.captures ∧
        dictGet ext' ([] : List (Tensor × Tensor)) = none) ∧
      containsStr (tensorRepr int')
        (ExportError.untrackedObject int').message) ∧
    ∀ res, generateSignatures [("serve", captureOnlyFunction)] [] 0 ≠
      .ok res :=
  untracked_capture_fails_export [("serve", captureOnlyFunction)] [] 0
    "serve" captureOnlyFunction (List.mem_cons_self _ _)
    (eagerHandle 0) (interiorPlaceholder 1 "vh")
    (List.mem_cons_self _ _) rfl

/-! ### C7: signature generation is order-independent and sorted -/

theorem sortSignatureItems_sorted (l : List (String × ConcreteFunction)) :
    List.Sorted sigItemLE (sortSignatureItems l) :=
  List.sorted_insertionSort sigItemLE l

theorem sortSignatureItems_perm (l : List (String × ConcreteFunction)) :
    (sortSignatureItems l).Perm l :=
  List.perm_insertionSort sigItemLE l

/-- A key-sorted list with pairwise-distinct keys is strictly key-sorted. -/
theorem sorted_strict_of_nodup_keys
    {l : List (String × ConcreteFunction)}
    (hs : List.Sorted sigItemLE l) (hn : (l.map Prod.fst).Nodup) :
    List.Sorted sigItemLT l := by
  have hne : l.Pairwise fun a b => a.1 ≠ b.1 := List.pairwise_map.mp hn
  exact (hs.and hne).imp fun h => lt_of_le_of_ne h.1 h.2

/-- Two permutations of the same key/function pairs with distinct keys sort
to the same list. -/
theorem sortSignatureItems_eq_of_perm
    (l₁ l₂ : List (String × ConcreteFunction))
    (hp : l₁.Perm l₂) (hn : (l₁.map Prod.fst).Nodup) :
    sortSignatureItems l₁ = sortSignatureItems l₂ := by
  have hp₁ := sortSignatureItems_perm l₁
  have hp₂ := sortSignatureItems_perm l₂
  have hperm : (sortSignatureItems l₁).Perm (sortSignatureItems l₂) :=
    hp₁.trans (hp.trans hp₂.symm)
  have hn₁ : ((sortSignatureItems l₁).map Prod.fst).Nodup :=
    ((hp₁.map Prod.fst).nodup_iff).mpr hn
  have hn₂ : ((sortSignatureItems l₂).map Prod.fst).Nodup :=
    ((hp₂.map Prod.fst).nodup_iff).mpr (((hp.map Prod.fst).nodup_iff).mp hn)
  exact List.eq_of_perm_of_sorted hperm
    (sorted_strict_of_nodup_keys (sortSignatureItems_sorted l₁) hn₁)
    (sorted_strict_of_nodup_keys (sortSignatureItems_sorted l₂) hn₂)

/-- **C7**: signature generation processes signature keys in lexicographic
order regardless of the order of the supplied mapping: for any two
orderings of the same signature table (with distinct keys) the generated
signature-descriptor tables are identical, and the processing order is the
key-sorted one. -/
theorem generate_signatures_deterministic
    (l₁ l₂ : List (String × ConcreteFunction))
    (rm : List (Tensor × Tensor)) (c : Nat)
    (hp : l₁.Perm l₂) (hn : (l₁.map Prod.fst).Nodup) :
    generateSignatures l₁ rm c = generateSignatures l₂ rm c ∧
    List.Sorted sigItemLE (sortSignatureItems l₁) ∧
    (sortSignatureItems l₁).Perm l₁ := by
  refine ⟨?_, sortSignatureItems_sorted l₁, sortSignatureItems_perm l₁⟩
  rw [generateSignatures, generateSignatures,
    sortSignatureItems_eq_of_perm l₁ l₂ hp hn]

/-- A capture-free, input-free signature function, for witnesses. -/
def constOutputFunction (nm : String) : ConcreteFunction :=
  ⟨nm, [], [], fun _ => PyVal.list []⟩

/-- Witness for C7: the same two signatures supplied in both orders. -/
theorem generate_signatures_deterministic_witness :
    generateSignatures
      [("b", constOutputFunction "fb"), ("a", constOutputFunction "fa")]
      [] 0 =
    generateSignatures
      [("a", constOutputFunction "fa"), ("b", constOutputFunction "fb")]
      [] 0 ∧
    List.Sorted sigItemLE (sortSignatureItems
      [("b", constOutputFunction "fb"), ("a", constOutputFunction "fa")]) ∧
    (sortSignatureItems
      [("b", constOutputFunction "fb"),
       ("a", constOutputFunction "fa")]).Perm
      [("b", constOutputFunction "fb"), ("a", constOutputFunction "fa")] :=
  generate_signatures_deterministic
    [("b", constOutputFunction "fb"), ("a", constOutputFunction "fa")]
    [("a", constOutputFunction "fa"), ("b", constOutputFunction "fb")]
    [] 0
    (List.Perm.swap ("a", constOutputFunction "fa")
      ("b", constOutputFunction "fb") [])
    (by decide)

/-! ### C8 and C9: effect ordering of `export` -/

/-- `_make_graph_def` either fails inside signature generation — leaving
the graph neither snapshotted nor dismantled — or succeeds, in which case
the dismantle step directly follows the snapshot. -/
theorem makeGraphDef_shape (root : RootObject)
    (sf : List (String × ConcreteFunction)) :
    (∃ e, makeGraphDef root sf = (.error e,
      [Event.createExportedGraph, Event.mapResourcesStep, Event.freezeSaver,
       Event.generateSignaturesStep])) ∨
    (∃ r, makeGraphDef root sf = (.ok r,
      [Event.createExportedGraph, Event.mapResourcesStep, Event.freezeSaver,
       Event.generateSignaturesStep, Event.snapshotGraph,
       Event.dismantleGraph])) := by
  rw [makeGraphDef]
  rcases hmr : mapResources root.objects 0 with ⟨om, rmc⟩
  obtain ⟨rm, c1⟩ := rmc
  dsimp only
  cases hg : generateSignatures sf rm c1 with
  | error e =>
    left
    exact ⟨e, rfl⟩
  | ok r =>
    right
    obtain ⟨sigs, c2⟩ := r
    exact ⟨(⟨c2⟩, sigs, ⟨om.length⟩), rfl⟩

/-- **C8**: the container file is written only as the very last step of a
fully successful export — a failing export never writes it — while a
checkpointable root's variables directory and checkpoint are always written
first, before signature canonicalization and validation, so they may exist
even when the export later fails. -/
theorem export_write_ordering
    (obj : RootObject) (signatures : SignaturesArg) (writeSucceeds : Bool) :
    (∀ e, (exportModel obj signatures writeSucceeds).1 = .error e →
      Event.writeSavedModel ∉ (exportModel obj signatures writeSucceeds).2) ∧
    (Event.writeSavedModel ∈ (exportModel obj signatures writeSucceeds).2 →
      ∃ pre, (exportModel obj signatures writeSucceeds).2 =
        pre ++ [Event.writeSavedModel]) ∧
    (obj.isCheckpointable = true →
      ∃ rest, (exportModel obj signatures writeSucceeds).2 =
        Event.createVariablesDir :: Event.writeCheckpoint :: rest) := by
  rw [exportModel]
  by_cases hc : obj.isCheckpointable = false
  · rw [if_pos hc]
    refine ⟨fun e _ => by simp, fun hm => absurd hm (by simp), fun ht => ?_⟩
    rw [ht] at hc
    cases hc
  · rw [if_neg hc]
    have hct : obj.isCheckpointable = true := by
      cases h : obj.isCheckpointable
      · exact absurd h hc
      · rfl
    cases hcan : canonicalizeSignatures signatures with
    | error e =>
      dsimp only
      exact ⟨fun e' _ => by decide, fun hm => absurd hm (by decide),
        fun _ => ⟨[], rfl⟩⟩
    | ok sf =>
      dsimp only
      rcases makeGraphDef_shape obj sf with ⟨e, hmg⟩ | ⟨r, hmg⟩
      · rw [hmg]
        dsimp only
        exact ⟨fun e' _ => by decide, fun hm => absurd hm (by decide),
          fun _ => ⟨_, rfl⟩⟩
      · rw [hmg]
        obtain ⟨gd, sigs, sd⟩ := r
        dsimp only
        cases writeSucceeds with
        | false =>
          exact ⟨fun e' _ => by decide, fun hm => absurd hm (by decide),
            fun _ => ⟨_, rfl⟩⟩
        | true =>
          refine ⟨fun e' he' => ?_, fun _ => ⟨_, rfl⟩, fun _ => ⟨_, rfl⟩⟩
          cases he'

/-- Witness for C8: a checkpointable root exported with an invalid
signature value — the export fails, the container is never written, yet the
variables directory and checkpoint were already written. -/
theorem export_write_ordering_witness :
    (exportModel ⟨true, "obj", []⟩ (.single (.other "3")) true).1 =
      .error (.notAFunction "3") ∧
    Event.writeSavedModel ∉
      (exportModel ⟨true, "obj", []⟩ (.single (.other "3")) true).2 ∧
    ∃ rest, (exportModel ⟨true, "obj", []⟩ (.single (.other "3")) true).2 =
      Event.createVariablesDir :: Event.writeCheckpoint :: rest :=
  ⟨rfl,
   (export_write_ordering ⟨true, "obj", []⟩ (.single (.other "3")) true).1
     (.notAFunction "3") rfl,
   (export_write_ordering ⟨true, "obj", []⟩ (.single (.other "3")) true).2.2
     rfl⟩

/-- **C9**: whenever an export run reaches the graph snapshot, its trace
starts with the persistence writes, creates the exportable graph fresh,
mutates it only in the resource-remapping / saver-freezing /
signature-generation steps, and dismantles it immediately after the
snapshot; everything after the dismantle is container assembly or the
final write — so the teardown happens even when serialization fails, and
repeated export calls do not accumulate retained graphs. -/
theorem exported_graph_lifecycle
    (obj : RootObject) (signatures : SignaturesArg) (writeSucceeds : Bool)
    (h : Event.snapshotGraph ∈ (exportModel obj signatures writeSucceeds).2) :
    ∃ post, (exportModel obj signatures writeSucceeds).2 =
      [Event.createVariablesDir, Event.writeCheckpoint,
       Event.createExportedGraph, Event.mapResourcesStep, Event.freezeSaver,
       Event.generateSignaturesStep, Event.snapshotGraph,
       Event.dismantleGraph] ++ post ∧
      ∀ e ∈ post, e = Event.assembleContainer ∨ e = Event.writeSavedModel := by
  revert h
  rw [exportModel]
  by_cases hc : obj.isCheckpointable = false
  · rw [if_pos hc]
    intro h
    cases h
  · rw [if_neg hc]
    cases hcan : canonicalizeSignatures signatures with
    | error e =>
      dsimp only
      intro h
      exact absurd h (by decide)
    | ok sf =>
      dsimp only
      rcases makeGraphDef_shape obj sf with ⟨e, hmg⟩ | ⟨r, hmg⟩
      · rw [hmg]
        dsimp only
        intro h
        exact absurd h (by decide)
      · rw [hmg]
        obtain ⟨gd, sigs, sd⟩ := r
        dsimp only
        cases writeSucceeds with
        | false =>
          intro _
          refine ⟨[Event.assembleContainer], rfl, ?_⟩
          intro e he
          rcases List.mem_cons.mp he with he | he
          · exact Or.inl he
          · cases he
        | true =>
          intro _
          refine ⟨[Event.assembleContainer, Event.writeSavedModel], rfl, ?_⟩
          intro e he
          rcases List.mem_cons.mp he with he | he
          · exact Or.inl he
          · rcases List.mem_cons.mp he with he | he
            · exact Or.inr he
            · cases he

set_option maxRecDepth 40000 in
/-- Witness for C9: a successful pipeline whose final file write fails —
the graph is still snapshotted and dismantled, in that order. -/
theorem exported_graph_lifecycle_witness :
    (exportModel ⟨true, "obj", []⟩ .nothing false).1 =
      .error .writeFailed ∧
    ∃ post, (exportModel ⟨true, "obj", []⟩ .nothing false).2 =
      [Event.createVariablesDir, Event.writeCheckpoint,
       Event.createExportedGraph, Event.mapResourcesStep, Event.freezeSaver,
       Event.generateSignaturesStep, Event.snapshotGraph,
       Event.dismantleGraph] ++ post ∧
      ∀ e ∈ post, e = Event.assembleContainer ∨ e = Event.writeSavedModel :=
  ⟨rfl, exported_graph_lifecycle ⟨true, "obj", []⟩ .nothing false (by decide)⟩

end TFExport
